import Mathlib

/-!
Shallow embedding of the `transactor` payments engine.

The Rust sources are translated definition by definition:
`src/error.rs` (`TransactorError`), `src/account.rs` (`Deposit`, `Account`
and its five operations), `src/manager.rs` (`Manager`), the record
processing layer of `src/parse/deserialze.rs` (`TransactionRecord.process`
and the loop of `load_data`), and the rendering of `src/parse/serialize.rs`
(`fixed_point_serialize`, `AccountRecord`).

Machine integers (`u64`, `u32`, `u16`) are modelled as `Nat`; the `HashMap`
of deposits (resp. of accounts) is modelled as an association list with a
first-match lookup, a replace-first update (the image of `get_mut` followed
by a field mutation) and an append insert (the image of `entry.insert` /
`insert` on a vacant key).
-/

deriving instance DecidableEq for Except

/-- The error enum of `src/error.rs`. The two collaborator-layer wrappers
`ParseError`/`IoError` carry external payloads (`csv::Error`, `io::Error`)
that play no role in the claims; they are kept as bare constructors. -/
inductive TransactorError where
  | ParseError
  | IoError
  | MissingAmount
  | WithdrawalExceedsAvailable (available attempted : Nat)
  | DisputeExceedsAvailable (available attempted : Nat)
  | FrozenAccount
  | NoClient (id : Nat)
  | NoTransaction (id : Nat)
  | DuplicateTxn (id : Nat)
  | NonDisputedTxn (id : Nat)
  | AlreadyDisputedTxn (id : Nat)
  deriving DecidableEq, Repr

/-- `TransactorError::withdrawal_exceeds`. -/
def TransactorError.withdrawal_exceeds (available attempted : Nat) : TransactorError :=
  TransactorError.WithdrawalExceedsAvailable available attempted

/-- `TransactorError::dispute_exceeds`. -/
def TransactorError.dispute_exceeds (available attempted : Nat) : TransactorError :=
  TransactorError.DisputeExceedsAvailable available attempted

/-- A deposit transaction (struct `Deposit` of `src/account.rs`). -/
structure Deposit where
  amount : Nat
  disputed : Bool
  deriving DecidableEq, Repr

/-- `Deposit::new`. -/
def Deposit.new (amount : Nat) : Deposit :=
  { amount := amount, disputed := false }

/-- `Deposit::is_disputed`. -/
def Deposit.is_disputed (d : Deposit) : Bool :=
  d.disputed

/-- `Deposit::dispute` (sets the flag). -/
def Deposit.dispute (d : Deposit) : Deposit :=
  { d with disputed := true }

/-- `Deposit::resolve` (clears the flag). -/
def Deposit.resolve (d : Deposit) : Deposit :=
  { d with disputed := false }

/-- First-match lookup in the deposits map (`HashMap::get` / `get_mut`). -/
def lookupDeposit : List (Nat × Deposit) → Nat → Option Deposit
  | [], _ => none
  | (k, d) :: rest, tx => if k = tx then some d else lookupDeposit rest tx

/-- Replace the value stored at a key (the write-back of a `get_mut`
mutation); leaves the list unchanged when the key is absent. -/
def setDeposit : List (Nat × Deposit) → Nat → Deposit → List (Nat × Deposit)
  | [], _, _ => []
  | (k, v) :: rest, tx, d => if k = tx then (k, d) :: rest else (k, v) :: setDeposit rest tx d

/-- A client account (struct `Account` of `src/account.rs`). -/
structure Account where
  available : Nat
  held : Nat
  frozen : Bool
  deposits : List (Nat × Deposit)
  deriving DecidableEq, Repr

/-- `Account::new`: a fresh account seeded with one deposit. -/
def Account.new (tx : Nat) (available : Nat) : Account :=
  { available := available
    held := 0
    frozen := false
    deposits := [(tx, Deposit.new available)] }

/-- `Account::total`. -/
def Account.total (a : Account) : Nat :=
  a.available + a.held

/-- `Account::is_frozen`. -/
def Account.is_frozen (a : Account) : Bool :=
  a.frozen

/-- `Account::deposit`. Returns the Rust return value paired with the
post-state of `self`. -/
def Account.deposit (a : Account) (tx amt : Nat) : Except TransactorError Unit × Account :=
  if a.frozen then (.error .FrozenAccount, a)
  else
    match lookupDeposit a.deposits tx with
    | none =>
        (.ok (), { a with
                   deposits := a.deposits ++ [(tx, Deposit.new amt)]
                   available := a.available + amt })
    | some _ => (.error (.DuplicateTxn tx), a)

/-- `Account::withdraw`. -/
def Account.withdraw (a : Account) (amt : Nat) : Except TransactorError Unit × Account :=
  if a.frozen then (.error .FrozenAccount, a)
  else if a.available < amt then
    (.error (TransactorError.withdrawal_exceeds a.available amt), a)
  else
    (.ok (), { a with available := a.available - amt })

/-- `Account::dispute`. -/
def Account.dispute (a : Account) (tx : Nat) : Except TransactorError Unit × Account :=
  if a.frozen then (.error .FrozenAccount, a)
  else
    match lookupDeposit a.deposits tx with
    | none => (.error (.NoTransaction tx), a)
    | some d =>
        if d.is_disputed then (.error (.AlreadyDisputedTxn tx), a)
        else if a.available < d.amount then
          (.error (TransactorError.dispute_exceeds a.available d.amount), a)
        else
          (.ok (), { a with
                     deposits := setDeposit a.deposits tx (Deposit.dispute d)
                     available := a.available - d.amount
                     held := a.held + d.amount })

/-- `Account::resolve`. -/
def Account.resolve (a : Account) (tx : Nat) : Except TransactorError Unit × Account :=
  if a.frozen then (.error .FrozenAccount, a)
  else
    match lookupDeposit a.deposits tx with
    | none => (.error (.NoTransaction tx), a)
    | some d =>
        if d.disputed then
          (.ok (), { a with
                     deposits := setDeposit a.deposits tx (Deposit.resolve d)
                     held := a.held - d.amount
                     available := a.available + d.amount })
        else (.error (.NonDisputedTxn tx), a)

/-- `Account::chargeback`. -/
def Account.chargeback (a : Account) (tx : Nat) : Except TransactorError Unit × Account :=
  if a.frozen then (.error .FrozenAccount, a)
  else
    match lookupDeposit a.deposits tx with
    | none => (.error (.NoTransaction tx), a)
    | some d =>
        if d.is_disputed then
          (.ok (), { a with
                     deposits := setDeposit a.deposits tx (Deposit.resolve d)
                     held := a.held - d.amount
                     frozen := true })
        else (.error (.NonDisputedTxn tx), a)

/-- One invocation of an `Account` operation, for stating reachability. -/
inductive AccountOp where
  | deposit (tx amt : Nat)
  | withdraw (amt : Nat)
  | dispute (tx : Nat)
  | resolve (tx : Nat)
  | chargeback (tx : Nat)
  deriving DecidableEq, Repr

/-- Apply one operation to an account, keeping result and post-state. -/
def Account.applyOp (a : Account) (op : AccountOp) : Except TransactorError Unit × Account :=
  match op with
  | .deposit tx amt => a.deposit tx amt
  | .withdraw amt => a.withdraw amt
  | .dispute tx => a.dispute tx
  | .resolve tx => a.resolve tx
  | .chargeback tx => a.chargeback tx

/-- Run a sequence of operations, keeping only the evolving state (failed
operations leave the state as it was, as the Rust caller does on `Err`). -/
def Account.runOps (a : Account) (ops : List AccountOp) : Account :=
  match ops with
  | [] => a
  | op :: rest => Account.runOps (a.applyOp op).2 rest

/-- Sum of the amounts of the currently disputed deposits of a deposits
map; the code maintains `held` equal to this quantity. -/
def disputedSum : List (Nat × Deposit) → Nat
  | [] => 0
  | (_, d) :: rest => (if d.disputed then d.amount else 0) + disputedSum rest

/-- The implicit held-funds invariant: `held` equals the sum of the
amounts of the currently disputed deposits. -/
def Account.heldInv (a : Account) : Prop :=
  a.held = disputedSum a.deposits

/-- First-match lookup in the accounts map of the `Manager`. -/
def lookupAccount : List (Nat × Account) → Nat → Option Account
  | [], _ => none
  | (k, a) :: rest, client => if k = client then some a else lookupAccount rest client

/-- Replace the account stored at a client id (write-back of `get_mut`). -/
def setAccount : List (Nat × Account) → Nat → Account → List (Nat × Account)
  | [], _, _ => []
  | (k, v) :: rest, client, a =>
      if k = client then (k, a) :: rest else (k, v) :: setAccount rest client a

/-- The ledger (struct `Manager` of `src/manager.rs`). -/
structure Manager where
  accounts : List (Nat × Account)
  deriving DecidableEq, Repr

/-- `Manager::new`. -/
def Manager.new : Manager :=
  { accounts := [] }

/-- `Manager::deposit`: delegate when the client exists, otherwise create
an account seeded with the deposit. -/
def Manager.deposit (m : Manager) (client tx amt : Nat) :
    Except TransactorError Unit × Manager :=
  match lookupAccount m.accounts client with
  | some acct =>
      let r := acct.deposit tx amt
      (r.1, { accounts := setAccount m.accounts client r.2 })
  | none =>
      (.ok (), { accounts := m.accounts ++ [(client, Account.new tx amt)] })

/-- `Manager::withdraw`. -/
def Manager.withdraw (m : Manager) (client amt : Nat) :
    Except TransactorError Unit × Manager :=
  match lookupAccount m.accounts client with
  | none => (.error (.NoClient client), m)
  | some acct =>
      let r := acct.withdraw amt
      (r.1, { accounts := setAccount m.accounts client r.2 })

/-- `Manager::dispute`. -/
def Manager.dispute (m : Manager) (client tx : Nat) :
    Except TransactorError Unit × Manager :=
  match lookupAccount m.accounts client with
  | none => (.error (.NoClient client), m)
  | some acct =>
      let r := acct.dispute tx
      (r.1, { accounts := setAccount m.accounts client r.2 })

/-- `Manager::resolve`. -/
def Manager.resolve (m : Manager) (client tx : Nat) :
    Except TransactorError Unit × Manager :=
  match lookupAccount m.accounts client with
  | none => (.error (.NoClient client), m)
  | some acct =>
      let r := acct.resolve tx
      (r.1, { accounts := setAccount m.accounts client r.2 })

/-- `Manager::chargeback`. -/
def Manager.chargeback (m : Manager) (client tx : Nat) :
    Except TransactorError Unit × Manager :=
  match lookupAccount m.accounts client with
  | none => (.error (.NoClient client), m)
  | some acct =>
      let r := acct.chargeback tx
      (r.1, { accounts := setAccount m.accounts client r.2 })

/-- One invocation of a `Manager` operation. -/
inductive ManagerOp where
  | deposit (client tx amt : Nat)
  | withdraw (client amt : Nat)
  | dispute (client tx : Nat)
  | resolve (client tx : Nat)
  | chargeback (client tx : Nat)
  deriving DecidableEq, Repr

/-- Apply one `Manager` operation, keeping result and post-state. -/
def Manager.applyOp (m : Manager) (op : ManagerOp) : Except TransactorError Unit × Manager :=
  match op with
  | .deposit client tx amt => m.deposit client tx amt
  | .withdraw client amt => m.withdraw client amt
  | .dispute client tx => m.dispute client tx
  | .resolve client tx => m.resolve client tx
  | .chargeback client tx => m.chargeback client tx

/-- The `Operation` enum of `src/parse/deserialze.rs`. -/
inductive Operation where
  | Withdrawal
  | Deposit
  | Dispute
  | Resolve
  | Chargeback
  deriving DecidableEq, Repr

/-- The `TransactionRecord` struct of `src/parse/deserialze.rs` (`client`
and `tx` as `Nat`, `amount` already scaled to fixed point by the
deserializer, `None` when the CSV field was empty). -/
structure TransactionRecord where
  operation : Operation
  client : Nat
  tx : Nat
  amount : Option Nat
  deriving DecidableEq, Repr

/-- `TransactionRecord::process`. The `let _ = match ...` of the source
discards the `Result` of the `Manager` call (a soft error), while the `?`
on `self.amount.ok_or(MissingAmount)` returns the error from `process`
itself. -/
def TransactionRecord.process (r : TransactionRecord) (m : Manager) :
    Except TransactorError Unit × Manager :=
  match r.operation with
  | .Withdrawal =>
      match r.amount with
      | none => (.error .MissingAmount, m)
      | some amt => (.ok (), (m.withdraw r.client amt).2)
  | .Deposit =>
      match r.amount with
      | none => (.error .MissingAmount, m)
      | some amt => (.ok (), (m.deposit r.client r.tx amt).2)
  | .Dispute => (.ok (), (m.dispute r.client r.tx).2)
  | .Resolve => (.ok (), (m.resolve r.client r.tx).2)
  | .Chargeback => (.ok (), (m.chargeback r.client r.tx).2)

/-- The record loop of `load_data`: `record.process(manager)?` aborts the
loop on the first error that `process` returns, propagating it to the
caller. File opening and CSV decoding are outside this model; the already
decoded records stand in for the `rdr.deserialize()` stream. -/
def processRecords (records : List TransactionRecord) (m : Manager) :
    Except TransactorError Unit × Manager :=
  match records with
  | [] => (.ok (), m)
  | r :: rest =>
      match r.process m with
      | (.ok _, m1) => processRecords rest m1
      | (.error e, m1) => (.error e, m1)

/-- `fixed_point_serialize` of `src/parse/serialize.rs`:
`format!("{whole}.{fract:04}")` with `whole = x / 10_000` and
`fract = x % 10_000`; `{fract:04}` left-pads the decimal digits of
`fract` with zeros to a minimum width of four. -/
def fixed_point_serialize (x : Nat) : String :=
  let scale := 10000
  let whole := x / scale
  let fract := x % scale
  Nat.repr whole ++ "." ++
    (String.mk (List.replicate (4 - (Nat.repr fract).length) '0') ++ Nat.repr fract)

/-- The `AccountRecord` struct of `src/parse/serialize.rs`. -/
structure AccountRecord where
  client : Nat
  available : Nat
  held : Nat
  total : Nat
  locked : Bool
  deriving DecidableEq, Repr

/-- `impl From<(u16, Account)> for AccountRecord`. -/
def AccountRecord.fromPair (p : Nat × Account) : AccountRecord :=
  { client := p.1
    available := p.2.available
    held := p.2.held
    total := p.2.total
    locked := p.2.is_frozen }

example : (Account.new 1 100).dispute 1
    = (.ok (), { available := 0, held := 100, frozen := false,
                 deposits := [(1, { amount := 100, disputed := true })] }) := by decide

example : Account.runOps (Account.new 1 100) [.dispute 1, .chargeback 1]
    = { available := 0, held := 0, frozen := true,
        deposits := [(1, { amount := 100, disputed := false })] } := by decide

example : ((Account.new 1 0).deposit 1 100).1 = .error (.DuplicateTxn 1) := by decide

example : fixed_point_serialize 15000 = "1.5000" := by decide

example : fixed_point_serialize 10000 = "1.0000" := by decide

example : fixed_point_serialize 5000 = "0.5000" := by decide

example : processRecords
    [{ operation := .Deposit, client := 1, tx := 1, amount := none },
     { operation := .Deposit, client := 1, tx := 2, amount := some 100 }] Manager.new
    = (.error .MissingAmount, Manager.new) := by decide

example : (processRecords
    [{ operation := .Deposit, client := 1, tx := 1, amount := some 100 },
     { operation := .Deposit, client := 1, tx := 2, amount := some 50 },
     { operation := .Dispute, client := 1, tx := 1, amount := none },
     { operation := .Chargeback, client := 1, tx := 1, amount := none }] Manager.new).2
    = { accounts := [(1, { available := 50, held := 0, frozen := true,
                           deposits := [(1, { amount := 100, disputed := false }),
                                        (2, { amount := 50, disputed := false })] })] } := by
  decide

/-- Looking a key up after `setDeposit` on that key yields the new value,
provided the key was present. -/
theorem lookupDeposit_setDeposit_self {l : List (Nat × Deposit)} {tx : Nat} {d d' : Deposit}
    (h : lookupDeposit l tx = some d) :
    lookupDeposit (setDeposit l tx d') tx = some d' := by
  induction l with
  | nil => simp [lookupDeposit] at h
  | cons hd tl ih =>
    obtain ⟨k, v⟩ := hd
    by_cases hk : k = tx
    · simp [lookupDeposit, setDeposit, hk]
    · simp only [lookupDeposit, setDeposit, hk, if_false] at h ⊢
      exact ih h

/-- Writing the looked-up value back leaves the map unchanged. -/
theorem setDeposit_self {l : List (Nat × Deposit)} {tx : Nat} {d : Deposit}
    (h : lookupDeposit l tx = some d) :
    setDeposit l tx d = l := by
  induction l with
  | nil => rfl
  | cons hd tl ih =>
    obtain ⟨k, v⟩ := hd
    by_cases hk : k = tx
    · simp only [lookupDeposit, hk, if_true] at h
      cases h
      simp [setDeposit, hk]
    · simp only [lookupDeposit, hk, if_false] at h
      simp [setDeposit, hk, ih h]

/-- Appending a fresh non-disputed deposit does not change the disputed
sum. -/
theorem disputedSum_append_new (l : List (Nat × Deposit)) (tx amt : Nat) :
    disputedSum (l ++ [(tx, Deposit.new amt)]) = disputedSum l := by
  induction l with
  | nil => simp [disputedSum, Deposit.new]
  | cons hd tl ih =>
    obtain ⟨k, v⟩ := hd
    simp [disputedSum, ih]

/-- Marking a present, non-disputed deposit as disputed raises the
disputed sum by exactly its amount. -/
theorem disputedSum_mark {l : List (Nat × Deposit)} {tx : Nat} {d : Deposit}
    (h : lookupDeposit l tx = some d) (hd : d.disputed = false) :
    disputedSum (setDeposit l tx (Deposit.dispute d)) = disputedSum l + d.amount := by
  induction l with
  | nil => simp [lookupDeposit] at h
  | cons hdp tl ih =>
    obtain ⟨k, v⟩ := hdp
    by_cases hk : k = tx
    · simp only [lookupDeposit, hk, if_true, Option.some.injEq] at h
      subst h
      simp [setDeposit, hk, disputedSum, Deposit.dispute, hd]
      omega
    · simp only [lookupDeposit, hk, if_false] at h
      simp only [setDeposit, hk, if_false, disputedSum, ih h]
      omega

/-- Clearing the disputed flag of a present, disputed deposit lowers the
disputed sum by exactly its amount (stated additively, which also bounds
the amount by the disputed sum). -/
theorem disputedSum_unmark {l : List (Nat × Deposit)} {tx : Nat} {d : Deposit}
    (h : lookupDeposit l tx = some d) (hd : d.disputed = true) :
    disputedSum (setDeposit l tx (Deposit.resolve d)) + d.amount = disputedSum l := by
  induction l with
  | nil => simp [lookupDeposit] at h
  | cons hdp tl ih =>
    obtain ⟨k, v⟩ := hdp
    by_cases hk : k = tx
    · simp only [lookupDeposit, hk, if_true, Option.some.injEq] at h
      subst h
      simp [setDeposit, hk, disputedSum, Deposit.resolve, hd]
      omega
    · simp only [lookupDeposit, hk, if_false] at h
      simp only [setDeposit, hk, if_false, disputedSum]
      have := ih h
      omega

/-- The disputed amount of any present, disputed deposit is bounded by
the disputed sum of the whole map. -/
theorem amount_le_disputedSum {l : List (Nat × Deposit)} {tx : Nat} {d : Deposit}
    (h : lookupDeposit l tx = some d) (hd : d.disputed = true) :
    d.amount ≤ disputedSum l := by
  have := disputedSum_unmark h hd
  omega

/-- Every operation on a frozen account fails with `FrozenAccount` and
returns the state untouched. -/
theorem Account.applyOp_frozen (a : Account) (op : AccountOp) (h : a.frozen = true) :
    a.applyOp op = (.error .FrozenAccount, a) := by
  cases op <;>
    simp [Account.applyOp, Account.deposit, Account.withdraw, Account.dispute,
          Account.resolve, Account.chargeback, h]

/-- `deposit` on a vacant transaction id inserts the deposit and credits
`available`. -/
theorem Account.deposit_vacant {a : Account} {tx amt : Nat}
    (hf : a.frozen = false) (hl : lookupDeposit a.deposits tx = none) :
    a.deposit tx amt
      = (.ok (), { a with deposits := a.deposits ++ [(tx, Deposit.new amt)]
                          available := a.available + amt }) := by
  simp [Account.deposit, hf, hl]

/-- `deposit` on an occupied transaction id fails with `DuplicateTxn`. -/
theorem Account.deposit_dup {a : Account} {tx amt : Nat} {d : Deposit}
    (hf : a.frozen = false) (hl : lookupDeposit a.deposits tx = some d) :
    a.deposit tx amt = (.error (.DuplicateTxn tx), a) := by
  simp [Account.deposit, hf, hl]

/-- `withdraw` of more than `available` fails. -/
theorem Account.withdraw_exceeds {a : Account} {amt : Nat}
    (hf : a.frozen = false) (h : a.available < amt) :
    a.withdraw amt = (.error (.WithdrawalExceedsAvailable a.available amt), a) := by
  simp [Account.withdraw, TransactorError.withdrawal_exceeds, hf, h]

/-- `withdraw` of at most `available` debits `available`. -/
theorem Account.withdraw_ok {a : Account} {amt : Nat}
    (hf : a.frozen = false) (h : amt ≤ a.available) :
    a.withdraw amt = (.ok (), { a with available := a.available - amt }) := by
  simp [Account.withdraw, hf, Nat.not_lt.mpr h]

/-- `dispute` of an unknown transaction fails with `NoTransaction`. -/
theorem Account.dispute_none {a : Account} {tx : Nat}
    (hf : a.frozen = false) (hl : lookupDeposit a.deposits tx = none) :
    a.dispute tx = (.error (.NoTransaction tx), a) := by
  simp [Account.dispute, hf, hl]

/-- `dispute` of an already disputed deposit fails. -/
theorem Account.dispute_already {a : Account} {tx : Nat} {d : Deposit}
    (hf : a.frozen = false) (hl : lookupDeposit a.deposits tx = some d)
    (hd : d.disputed = true) :
    a.dispute tx = (.error (.AlreadyDisputedTxn tx), a) := by
  simp [Account.dispute, Deposit.is_disputed, hf, hl, hd]

/-- `dispute` of a deposit larger than `available` fails. -/
theorem Account.dispute_exceeds_lemma {a : Account} {tx : Nat} {d : Deposit}
    (hf : a.frozen = false) (hl : lookupDeposit a.deposits tx = some d)
    (hd : d.disputed = false) (h : a.available < d.amount) :
    a.dispute tx = (.error (.DisputeExceedsAvailable a.available d.amount), a) := by
  simp [Account.dispute, Deposit.is_disputed, TransactorError.dispute_exceeds, hf, hl, hd, h]

/-- Successful `dispute`: marks the deposit and moves its amount from
`available` to `held`. -/
theorem Account.dispute_ok {a : Account} {tx : Nat} {d : Deposit}
    (hf : a.frozen = false) (hl : lookupDeposit a.deposits tx = some d)
    (hd : d.disputed = false) (h : d.amount ≤ a.available) :
    a.dispute tx
      = (.ok (), { a with deposits := setDeposit a.deposits tx (Deposit.dispute d)
                          available := a.available - d.amount
                          held := a.held + d.amount }) := by
  simp [Account.dispute, Deposit.is_disputed, hf, hl, hd, Nat.not_lt.mpr h]

/-- `resolve` of an unknown transaction fails with `NoTransaction`. -/
theorem Account.resolve_none {a : Account} {tx : Nat}
    (hf : a.frozen = false) (hl : lookupDeposit a.deposits tx = none) :
    a.resolve tx = (.error (.NoTransaction tx), a) := by
  simp [Account.resolve, hf, hl]

/-- `resolve` of a non-disputed deposit fails with `NonDisputedTxn`. -/
theorem Account.resolve_nondisputed {a : Account} {tx : Nat} {d : Deposit}
    (hf : a.frozen = false) (hl : lookupDeposit a.deposits tx = some d)
    (hd : d.disputed = false) :
    a.resolve tx = (.error (.NonDisputedTxn tx), a) := by
  simp [Account.resolve, hf, hl, hd]

/-- Successful `resolve`: clears the flag and moves the amount from
`held` back to `available`. -/
theorem Account.resolve_ok {a : Account} {tx : Nat} {d : Deposit}
    (hf : a.frozen = false) (hl : lookupDeposit a.deposits tx = some d)
    (hd : d.disputed = true) :
    a.resolve tx
      = (.ok (), { a with deposits := setDeposit a.deposits tx (Deposit.resolve d)
                          held := a.held - d.amount
                          available := a.available + d.amount }) := by
  simp [Account.resolve, hf, hl, hd]

/-- `chargeback` of an unknown transaction fails with `NoTransaction`. -/
theorem Account.chargeback_none {a : Account} {tx : Nat}
    (hf : a.frozen = false) (hl : lookupDeposit a.deposits tx = none) :
    a.chargeback tx = (.error (.NoTransaction tx), a) := by
  simp [Account.chargeback, hf, hl]

/-- `chargeback` of a non-disputed deposit fails with `NonDisputedTxn`. -/
theorem Account.chargeback_nondisputed {a : Account} {tx : Nat} {d : Deposit}
    (hf : a.frozen = false) (hl : lookupDeposit a.deposits tx = some d)
    (hd : d.disputed = false) :
    a.chargeback tx = (.error (.NonDisputedTxn tx), a) := by
  simp [Account.chargeback, Deposit.is_disputed, hf, hl, hd]

/-- Successful `chargeback`: clears the flag, removes the amount from
`held` and freezes the account. -/
theorem Account.chargeback_ok {a : Account} {tx : Nat} {d : Deposit}
    (hf : a.frozen = false) (hl : lookupDeposit a.deposits tx = some d)
    (hd : d.disputed = true) :
    a.chargeback tx
      = (.ok (), { a with deposits := setDeposit a.deposits tx (Deposit.resolve d)
                          held := a.held - d.amount
                          frozen := true }) := by
  simp [Account.chargeback, Deposit.is_disputed, hf, hl, hd]

/-- Inversion of a successful `deposit`. -/
theorem Account.deposit_ok_inv {a : Account} {tx amt : Nat}
    (h : (a.deposit tx amt).1 = .ok ()) :
    a.frozen = false ∧ lookupDeposit a.deposits tx = none := by
  by_cases hf : a.frozen
  · simp [Account.deposit, hf] at h
  · cases hl : lookupDeposit a.deposits tx with
    | none => exact ⟨by simpa using hf, rfl⟩
    | some d => simp [Account.deposit, hf, hl] at h

/-- Inversion of a successful `withdraw`. -/
theorem Account.withdraw_ok_inv {a : Account} {amt : Nat}
    (h : (a.withdraw amt).1 = .ok ()) :
    a.frozen = false ∧ amt ≤ a.available := by
  by_cases hf : a.frozen
  · simp [Account.withdraw, hf] at h
  · by_cases hlt : a.available < amt
    · simp [Account.withdraw, hf, hlt] at h
    · exact ⟨by simpa using hf, Nat.not_lt.mp hlt⟩

/-- Inversion of a successful `dispute`. -/
theorem Account.dispute_ok_inv {a : Account} {tx : Nat}
    (h : (a.dispute tx).1 = .ok ()) :
    a.frozen = false ∧ ∃ d, lookupDeposit a.deposits tx = some d ∧
      d.disputed = false ∧ d.amount ≤ a.available := by
  by_cases hf : a.frozen
  · simp [Account.dispute, hf] at h
  · cases hl : lookupDeposit a.deposits tx with
    | none => simp [Account.dispute, hf, hl] at h
    | some d =>
      by_cases hd : d.disputed
      · simp [Account.dispute, Deposit.is_disputed, hf, hl, hd] at h
      · by_cases hlt : a.available < d.amount
        · simp [Account.dispute, Deposit.is_disputed, hf, hl, hd, hlt] at h
        · exact ⟨by simpa using hf, d, rfl, by simpa using hd, Nat.not_lt.mp hlt⟩

/-- Inversion of a successful `resolve`. -/
theorem Account.resolve_ok_inv {a : Account} {tx : Nat}
    (h : (a.resolve tx).1 = .ok ()) :
    a.frozen = false ∧ ∃ d, lookupDeposit a.deposits tx = some d ∧ d.disputed = true := by
  by_cases hf : a.frozen
  · simp [Account.resolve, hf] at h
  · cases hl : lookupDeposit a.deposits tx with
    | none => simp [Account.resolve, hf, hl] at h
    | some d =>
      by_cases hd : d.disputed
      · exact ⟨by simpa using hf, d, rfl, hd⟩
      · simp [Account.resolve, hf, hl, hd] at h

/-- Inversion of a successful `chargeback`. -/
theorem Account.chargeback_ok_inv {a : Account} {tx : Nat}
    (h : (a.chargeback tx).1 = .ok ()) :
    a.frozen = false ∧ ∃ d, lookupDeposit a.deposits tx = some d ∧ d.disputed = true := by
  by_cases hf : a.frozen
  · simp [Account.chargeback, hf] at h
  · cases hl : lookupDeposit a.deposits tx with
    | none => simp [Account.chargeback, hf, hl] at h
    | some d =>
      by_cases hd : d.disputed
      · exact ⟨by simpa using hf, d, rfl, hd⟩
      · simp [Account.chargeback, Deposit.is_disputed, hf, hl, hd] at h

/-- A fresh account satisfies the held-funds invariant. -/
theorem Account.heldInv_new (tx amt : Nat) : (Account.new tx amt).heldInv := by
  simp [Account.heldInv, Account.new, disputedSum, Deposit.new]

/-- Every operation preserves the held-funds invariant. -/
theorem Account.heldInv_applyOp (a : Account) (op : AccountOp) (h : a.heldInv) :
    ((a.applyOp op).2).heldInv := by
  by_cases hf : a.frozen
  · rw [Account.applyOp_frozen a op hf]; exact h
  · have hf' : a.frozen = false := by simpa using hf
    cases op with
    | deposit tx amt =>
      cases hl : lookupDeposit a.deposits tx with
      | none =>
        simp only [Account.applyOp, Account.deposit_vacant hf' hl]
        simp [Account.heldInv, disputedSum_append_new] at h ⊢
        exact h
      | some d => simp only [Account.applyOp, Account.deposit_dup hf' hl]; exact h
    | withdraw amt =>
      by_cases hlt : a.available < amt
      · simp only [Account.applyOp, Account.withdraw_exceeds hf' hlt]; exact h
      · simp only [Account.applyOp, Account.withdraw_ok hf' (Nat.not_lt.mp hlt)]
        exact h
    | dispute tx =>
      cases hl : lookupDeposit a.deposits tx with
      | none => simp only [Account.applyOp, Account.dispute_none hf' hl]; exact h
      | some d =>
        by_cases hd : d.disputed
        · simp only [Account.applyOp, Account.dispute_already hf' hl hd]; exact h
        · have hd' : d.disputed = false := by simpa using hd
          by_cases hlt : a.available < d.amount
          · simp only [Account.applyOp, Account.dispute_exceeds_lemma hf' hl hd' hlt]
            exact h
          · simp only [Account.applyOp,
              Account.dispute_ok hf' hl hd' (Nat.not_lt.mp hlt)]
            simp only [Account.heldInv] at h ⊢
            rw [disputedSum_mark hl hd', h]
    | resolve tx =>
      cases hl : lookupDeposit a.deposits tx with
      | none => simp only [Account.applyOp, Account.resolve_none hf' hl]; exact h
      | some d =>
        by_cases hd : d.disputed
        · simp only [Account.applyOp, Account.resolve_ok hf' hl hd]
          simp only [Account.heldInv] at h ⊢
          have := disputedSum_unmark hl hd
          omega
        · have hd' : d.disputed = false := by simpa using hd
          simp only [Account.applyOp, Account.resolve_nondisputed hf' hl hd']; exact h
    | chargeback tx =>
      cases hl : lookupDeposit a.deposits tx with
      | none => simp only [Account.applyOp, Account.chargeback_none hf' hl]; exact h
      | some d =>
        by_cases hd : d.disputed
        · simp only [Account.applyOp, Account.chargeback_ok hf' hl hd]
          simp only [Account.heldInv] at h ⊢
          have := disputedSum_unmark hl hd
          omega
        · have hd' : d.disputed = false := by simpa using hd
          simp only [Account.applyOp, Account.chargeback_nondisputed hf' hl hd']; exact h

/-- The held-funds invariant holds along any run. -/
theorem Account.heldInv_runOps (a : Account) (ops : List AccountOp) (h : a.heldInv) :
    (Account.runOps a ops).heldInv := by
  induction ops generalizing a with
  | nil => exact h
  | cons op rest ih => exact ih _ (Account.heldInv_applyOp a op h)

/-- The held-funds invariant holds in every reachable account state. -/
theorem Account.heldInv_reachable (tx amt : Nat) (ops : List AccountOp) :
    (Account.runOps (Account.new tx amt) ops).heldInv :=
  Account.heldInv_runOps _ ops (Account.heldInv_new tx amt)

/-- Writing the looked-up account back leaves the ledger map unchanged. -/
theorem setAccount_self {l : List (Nat × Account)} {client : Nat} {a : Account}
    (h : lookupAccount l client = some a) :
    setAccount l client a = l := by
  induction l with
  | nil => rfl
  | cons hd tl ih =>
    obtain ⟨k, v⟩ := hd
    by_cases hk : k = client
    · simp only [lookupAccount, hk, if_true, Option.some.injEq] at h
      cases h
      simp [setAccount, hk]
    · simp only [lookupAccount, hk, if_false] at h
      simp [setAccount, hk, ih h]

/-- `Account` operations are atomic: an error leaves the state untouched. -/
theorem Account.applyOp_error (a : Account) (op : AccountOp) (e : TransactorError)
    (h : (a.applyOp op).1 = .error e) : (a.applyOp op).2 = a := by
  by_cases hf : a.frozen
  · rw [Account.applyOp_frozen a op hf]
  · have hf' : a.frozen = false := by simpa using hf
    cases op with
    | deposit tx amt =>
      cases hl : lookupDeposit a.deposits tx with
      | none => simp [Account.applyOp, Account.deposit_vacant hf' hl] at h
      | some d => simp [Account.applyOp, Account.deposit_dup hf' hl]
    | withdraw amt =>
      by_cases hlt : a.available < amt
      · simp [Account.applyOp, Account.withdraw_exceeds hf' hlt]
      · simp [Account.applyOp, Account.withdraw_ok hf' (Nat.not_lt.mp hlt)] at h
    | dispute tx =>
      cases hl : lookupDeposit a.deposits tx with
      | none => simp [Account.applyOp, Account.dispute_none hf' hl]
      | some d =>
        by_cases hd : d.disputed
        · simp [Account.applyOp, Account.dispute_already hf' hl hd]
        · have hd' : d.disputed = false := by simpa using hd
          by_cases hlt : a.available < d.amount
          · simp [Account.applyOp, Account.dispute_exceeds_lemma hf' hl hd' hlt]
          · simp [Account.applyOp,
              Account.dispute_ok hf' hl hd' (Nat.not_lt.mp hlt)] at h
    | resolve tx =>
      cases hl : lookupDeposit a.deposits tx with
      | none => simp [Account.applyOp, Account.resolve_none hf' hl]
      | some d =>
        by_cases hd : d.disputed
        · simp [Account.applyOp, Account.resolve_ok hf' hl hd] at h
        · have hd' : d.disputed = false := by simpa using hd
          simp [Account.applyOp, Account.resolve_nondisputed hf' hl hd']
    | chargeback tx =>
      cases hl : lookupDeposit a.deposits tx with
      | none => simp [Account.applyOp, Account.chargeback_none hf' hl]
      | some d =>
        by_cases hd : d.disputed
        · simp [Account.applyOp, Account.chargeback_ok hf' hl hd] at h
        · have hd' : d.disputed = false := by simpa using hd
          simp [Account.applyOp, Account.chargeback_nondisputed hf' hl hd']

/-- `Manager` operations are atomic: an error leaves the whole ledger
(including the client-to-account mapping) untouched. -/
theorem Manager.applyOp_error_unchanged (m : Manager) (op : ManagerOp) (e : TransactorError)
    (h : (m.applyOp op).1 = .error e) : (m.applyOp op).2 = m := by
  cases op with
  | deposit client tx amt =>
    cases hl : lookupAccount m.accounts client with
    | none => simp [Manager.applyOp, Manager.deposit, hl] at h
    | some acct =>
      simp only [Manager.applyOp, Manager.deposit, hl] at h ⊢
      have hstate : (acct.deposit tx amt).2 = acct :=
        Account.applyOp_error acct (AccountOp.deposit tx amt) e h
      rw [hstate, setAccount_self hl]
  | withdraw client amt =>
    cases hl : lookupAccount m.accounts client with
    | none => simp [Manager.applyOp, Manager.withdraw, hl]
    | some acct =>
      simp only [Manager.applyOp, Manager.withdraw, hl] at h ⊢
      have hstate : (acct.withdraw amt).2 = acct :=
        Account.applyOp_error acct (AccountOp.withdraw amt) e h
      rw [hstate, setAccount_self hl]
  | dispute client tx =>
    cases hl : lookupAccount m.accounts client with
    | none => simp [Manager.applyOp, Manager.dispute, hl]
    | some acct =>
      simp only [Manager.applyOp, Manager.dispute, hl] at h ⊢
      have hstate : (acct.dispute tx).2 = acct :=
        Account.applyOp_error acct (AccountOp.dispute tx) e h
      rw [hstate, setAccount_self hl]
  | resolve client tx =>
    cases hl : lookupAccount m.accounts client with
    | none => simp [Manager.applyOp, Manager.resolve, hl]
    | some acct =>
      simp only [Manager.applyOp, Manager.resolve, hl] at h ⊢
      have hstate : (acct.resolve tx).2 = acct :=
        Account.applyOp_error acct (AccountOp.resolve tx) e h
      rw [hstate, setAccount_self hl]
  | chargeback client tx =>
    cases hl : lookupAccount m.accounts client with
    | none => simp [Manager.applyOp, Manager.chargeback, hl]
    | some acct =>
      simp only [Manager.applyOp, Manager.chargeback, hl] at h ⊢
      have hstate : (acct.chargeback tx).2 = acct :=
        Account.applyOp_error acct (AccountOp.chargeback tx) e h
      rw [hstate, setAccount_self hl]

/-- Looking up a key that was absent before an append finds the appended
entry. -/
theorem lookupDeposit_append_right {l : List (Nat × Deposit)} {tx : Nat} {d : Deposit}
    (h : lookupDeposit l tx = none) :
    lookupDeposit (l ++ [(tx, d)]) tx = some d := by
  induction l with
  | nil => simp [lookupDeposit]
  | cons hd tl ih =>
    obtain ⟨k, v⟩ := hd
    by_cases hk : k = tx
    · simp [lookupDeposit, hk] at h
    · simp only [lookupDeposit, hk, if_false] at h
      simpa [lookupDeposit, hk] using ih h

/-- C3: every `Account` operation (deposit, withdraw, dispute, resolve,
chargeback) and every `Manager` operation is atomic: whenever it returns
an error, the entire state (the account's fields and the ledger's
client-to-account mapping) is exactly as it was before the call. -/
theorem claim_C3_atomicity :
    (∀ (a : Account) (op : AccountOp) (e : TransactorError),
      (a.applyOp op).1 = .error e → (a.applyOp op).2 = a) ∧
    (∀ (m : Manager) (op : ManagerOp) (e : TransactorError),
      (m.applyOp op).1 = .error e → (m.applyOp op).2 = m) :=
  ⟨Account.applyOp_error, Manager.applyOp_error_unchanged⟩

/-- Witness for C3 at a concrete failing withdrawal and a concrete
unknown-client dispute. -/
theorem claim_C3_atomicity_witness :
    ((Account.new 1 100).applyOp (.withdraw 200)).1
      = .error (.WithdrawalExceedsAvailable 100 200) ∧
    ((Account.new 1 100).applyOp (.withdraw 200)).2 = Account.new 1 100 ∧
    (Manager.new.applyOp (.dispute 5 3)).1 = .error (.NoClient 5) ∧
    (Manager.new.applyOp (.dispute 5 3)).2 = Manager.new := by
  refine ⟨by decide, ?_, by decide, ?_⟩
  · exact claim_C3_atomicity.1 (Account.new 1 100) (.withdraw 200)
      (.WithdrawalExceedsAvailable 100 200) (by decide)
  · exact claim_C3_atomicity.2 Manager.new (.dispute 5 3) (.NoClient 5) (by decide)

/-- C4: for every non-frozen account, `dispute tx` fails with
`NoTransaction tx` when `tx` is unknown, with `AlreadyDisputedTxn tx`
when the deposit is already disputed, and with
`DisputeExceedsAvailable` when the deposit's amount exceeds `available`,
each without mutation; otherwise it marks the deposit disputed, moves the
amount from `available` to `held`, and succeeds. -/
theorem claim_C4_dispute (a : Account) (tx : Nat) (hf : a.frozen = false) :
    (lookupDeposit a.deposits tx = none →
      a.dispute tx = (.error (.NoTransaction tx), a)) ∧
    (∀ d, lookupDeposit a.deposits tx = some d → d.disputed = true →
      a.dispute tx = (.error (.AlreadyDisputedTxn tx), a)) ∧
    (∀ d, lookupDeposit a.deposits tx = some d → d.disputed = false →
      a.available < d.amount →
      a.dispute tx = (.error (.DisputeExceedsAvailable a.available d.amount), a)) ∧
    (∀ d, lookupDeposit a.deposits tx = some d → d.disputed = false →
      d.amount ≤ a.available →
      (a.dispute tx).1 = .ok () ∧
      lookupDeposit ((a.dispute tx).2).deposits tx
        = some { amount := d.amount, disputed := true } ∧
      ((a.dispute tx).2).available + d.amount = a.available ∧
      ((a.dispute tx).2).held = a.held + d.amount ∧
      ((a.dispute tx).2).frozen = a.frozen) := by
  refine ⟨fun hl => Account.dispute_none hf hl,
          fun d hl hd => Account.dispute_already hf hl hd,
          fun d hl hd hlt => Account.dispute_exceeds_lemma hf hl hd hlt,
          fun d hl hd hle => ?_⟩
  rw [Account.dispute_ok hf hl hd hle]
  refine ⟨rfl, ?_, by simp; omega, by simp, by simp⟩
  have := @lookupDeposit_setDeposit_self _ _ _ (Deposit.dispute d) hl
  simpa [Deposit.dispute] using this

/-- Witness for C4 on a fresh two-deposit account. -/
theorem claim_C4_dispute_witness :
    (Account.runOps (Account.new 1 100) [.deposit 2 30]).frozen = false ∧
    lookupDeposit (Account.runOps (Account.new 1 100) [.deposit 2 30]).deposits 9 = none ∧
    (Account.runOps (Account.new 1 100) [.deposit 2 30]).dispute 9
      = (.error (.NoTransaction 9), Account.runOps (Account.new 1 100) [.deposit 2 30]) ∧
    lookupDeposit (Account.runOps (Account.new 1 100) [.deposit 2 30]).deposits 2
      = some { amount := 30, disputed := false } ∧
    ((Account.runOps (Account.new 1 100) [.deposit 2 30]).dispute 2).1 = .ok () ∧
    (((Account.runOps (Account.new 1 100) [.deposit 2 30]).dispute 2).2).held
      = (Account.runOps (Account.new 1 100) [.deposit 2 30]).held + 30 := by
  refine ⟨by decide, by decide, ?_, by decide, ?_, ?_⟩
  · exact (claim_C4_dispute _ 9 (by decide)).1 (by decide)
  · exact ((claim_C4_dispute _ 2 (by decide)).2.2.2
      { amount := 30, disputed := false } (by decide) (by decide) (by decide)).1
  · exact ((claim_C4_dispute _ 2 (by decide)).2.2.2
      { amount := 30, disputed := false } (by decide) (by decide) (by decide)).2.2.2.1

/-- C7: for a client with no account, `Manager.deposit` creates a new
account seeded with the deposit and succeeds, while the other four
operations fail with `NoClient` and create nothing; for a known client
every operation delegates to the `Account` operation and surfaces its
result unchanged, writing back the account's post-state. -/
theorem claim_C7_manager (m : Manager) (client : Nat) :
    (lookupAccount m.accounts client = none →
      (∀ tx amt, m.deposit client tx amt
        = (.ok (), { accounts := m.accounts ++ [(client, Account.new tx amt)] })) ∧
      (∀ amt, m.withdraw client amt = (.error (.NoClient client), m)) ∧
      (∀ tx, m.dispute client tx = (.error (.NoClient client), m)) ∧
      (∀ tx, m.resolve client tx = (.error (.NoClient client), m)) ∧
      (∀ tx, m.chargeback client tx = (.error (.NoClient client), m))) ∧
    (∀ acct, lookupAccount m.accounts client = some acct →
      (∀ tx amt, m.deposit client tx amt
        = ((acct.deposit tx amt).1,
           { accounts := setAccount m.accounts client (acct.deposit tx amt).2 })) ∧
      (∀ amt, m.withdraw client amt
        = ((acct.withdraw amt).1,
           { accounts := setAccount m.accounts client (acct.withdraw amt).2 })) ∧
      (∀ tx, m.dispute client tx
        = ((acct.dispute tx).1,
           { accounts := setAccount m.accounts client (acct.dispute tx).2 })) ∧
      (∀ tx, m.resolve client tx
        = ((acct.resolve tx).1,
           { accounts := setAccount m.accounts client (acct.resolve tx).2 })) ∧
      (∀ tx, m.chargeback client tx
        = ((acct.chargeback tx).1,
           { accounts := setAccount m.accounts client (acct.chargeback tx).2 }))) := by
  constructor
  · intro hl
    exact ⟨fun tx amt => by simp [Manager.deposit, hl],
           fun amt => by simp [Manager.withdraw, hl],
           fun tx => by simp [Manager.dispute, hl],
           fun tx => by simp [Manager.resolve, hl],
           fun tx => by simp [Manager.chargeback, hl]⟩
  · intro acct hl
    exact ⟨fun tx amt => by simp [Manager.deposit, hl],
           fun amt => by simp [Manager.withdraw, hl],
           fun tx => by simp [Manager.dispute, hl],
           fun tx => by simp [Manager.resolve, hl],
           fun tx => by simp [Manager.chargeback, hl]⟩

/-- Witness for C7: an unknown client is rejected by `withdraw` and an
account is created by `deposit`; a known client's deposit delegates. -/
theorem claim_C7_manager_witness :
    Manager.new.withdraw 4 10 = (.error (.NoClient 4), Manager.new) ∧
    Manager.new.deposit 4 1 100
      = (.ok (), { accounts := [(4, Account.new 1 100)] }) ∧
    (Manager.mk [(4, Account.new 1 100)]).deposit 4 1 7
      = (.error (.DuplicateTxn 1), Manager.mk [(4, Account.new 1 100)]) := by
  refine ⟨(claim_C7_manager Manager.new 4).1 (by decide) |>.2.1 10, ?_, ?_⟩
  · have := ((claim_C7_manager Manager.new 4).1 (by decide)).1 1 100
    simpa [Manager.new] using this
  · have := ((claim_C7_manager (Manager.mk [(4, Account.new 1 100)]) 4).2
      (Account.new 1 100) (by decide)).1 1 7
    rw [this]
    decide

/-- C1: in every account state reachable from creation, `available` and
`held` are non-negative and `total` equals `available + held`; a
successful dispute or resolve leaves `available + held` unchanged, a
successful deposit increases it by the deposited amount, a successful
withdrawal decreases it by the withdrawn amount, and a successful
chargeback decreases it by the disputed deposit's amount. -/
theorem claim_C1_invariants (tx0 amt0 : Nat) (ops : List AccountOp) (a : Account)
    (ha : a = Account.runOps (Account.new tx0 amt0) ops) :
    0 ≤ a.available ∧ 0 ≤ a.held ∧ a.total = a.available + a.held ∧
    (∀ tx, (a.dispute tx).1 = .ok () → ((a.dispute tx).2).total = a.total) ∧
    (∀ tx, (a.resolve tx).1 = .ok () → ((a.resolve tx).2).total = a.total) ∧
    (∀ tx amt, (a.deposit tx amt).1 = .ok () →
      ((a.deposit tx amt).2).total = a.total + amt) ∧
    (∀ amt, (a.withdraw amt).1 = .ok () → ((a.withdraw amt).2).total + amt = a.total) ∧
    (∀ tx d, lookupDeposit a.deposits tx = some d → (a.chargeback tx).1 = .ok () →
      ((a.chargeback tx).2).total + d.amount = a.total) := by
  have hinv : a.heldInv := ha ▸ Account.heldInv_reachable tx0 amt0 ops
  refine ⟨Nat.zero_le _, Nat.zero_le _, rfl, ?_, ?_, ?_, ?_, ?_⟩
  · intro tx h
    obtain ⟨hf, d, hl, hd, hle⟩ := Account.dispute_ok_inv h
    rw [Account.dispute_ok hf hl hd hle]
    simp [Account.total]
    omega
  · intro tx h
    obtain ⟨hf, d, hl, hd⟩ := Account.resolve_ok_inv h
    have hheld : d.amount ≤ a.held := hinv ▸ amount_le_disputedSum hl hd
    rw [Account.resolve_ok hf hl hd]
    simp [Account.total]
    omega
  · intro tx amt h
    obtain ⟨hf, hl⟩ := Account.deposit_ok_inv h
    rw [Account.deposit_vacant hf hl]
    simp [Account.total]
    omega
  · intro amt h
    obtain ⟨hf, hle⟩ := Account.withdraw_ok_inv h
    rw [Account.withdraw_ok hf hle]
    simp [Account.total]
    omega
  · intro tx d hl h
    obtain ⟨hf, d', hl', hd'⟩ := Account.chargeback_ok_inv h
    rw [hl] at hl'
    cases hl'
    have hheld : d.amount ≤ a.held := hinv ▸ amount_le_disputedSum hl hd'
    rw [Account.chargeback_ok hf hl hd']
    simp [Account.total]
    omega

/-- Witness for C1 on a freshly created account. -/
theorem claim_C1_invariants_witness :
    ((Account.runOps (Account.new 1 100) []).deposit 2 50).1 = .ok () ∧
    (((Account.runOps (Account.new 1 100) []).deposit 2 50).2).total
      = (Account.runOps (Account.new 1 100) []).total + 50 := by
  refine ⟨by decide, ?_⟩
  exact (claim_C1_invariants 1 100 [] _ rfl).2.2.2.2.2.1 2 50 (by decide)

/-- C2: on a reachable, non-frozen account, a chargeback of a disputed
deposit succeeds, clears the disputed flag, removes exactly the deposit's
amount from `held` (and from `total`) and freezes the account; and on a
frozen account every operation fails with `FrozenAccount` and returns the
state completely unchanged (in particular `frozen` is never unset). -/
theorem claim_C2_chargeback_freeze :
    (∀ (tx0 amt0 : Nat) (ops : List AccountOp) (a : Account) (tx : Nat) (d : Deposit),
      a = Account.runOps (Account.new tx0 amt0) ops →
      a.frozen = false → lookupDeposit a.deposits tx = some d → d.disputed = true →
        (a.chargeback tx).1 = .ok () ∧
        lookupDeposit ((a.chargeback tx).2).deposits tx
          = some { amount := d.amount, disputed := false } ∧
        ((a.chargeback tx).2).held + d.amount = a.held ∧
        ((a.chargeback tx).2).total + d.amount = a.total ∧
        ((a.chargeback tx).2).available = a.available ∧
        ((a.chargeback tx).2).frozen = true) ∧
    (∀ (a : Account) (op : AccountOp), a.frozen = true →
      a.applyOp op = (.error .FrozenAccount, a)) := by
  constructor
  · intro tx0 amt0 ops a tx d ha hf hl hd
    have hinv : a.heldInv := ha ▸ Account.heldInv_reachable tx0 amt0 ops
    have hheld : d.amount ≤ a.held := hinv ▸ amount_le_disputedSum hl hd
    rw [Account.chargeback_ok hf hl hd]
    have hset := @lookupDeposit_setDeposit_self _ _ _ (Deposit.resolve d) hl
    refine ⟨rfl, by simpa [Deposit.resolve] using hset, by simp; omega,
            by simp [Account.total]; omega, by simp, by simp⟩
  · exact Account.applyOp_frozen

/-- Witness for C2 on the deposit-dispute-chargeback scenario. -/
theorem claim_C2_chargeback_freeze_witness :
    ((Account.runOps (Account.new 1 100) [.deposit 2 50, .dispute 1]).chargeback 1).1
      = .ok () ∧
    (((Account.runOps (Account.new 1 100) [.deposit 2 50, .dispute 1]).chargeback 1).2).held
      + 100
      = (Account.runOps (Account.new 1 100) [.deposit 2 50, .dispute 1]).held ∧
    (((Account.runOps (Account.new 1 100) [.deposit 2 50, .dispute 1]).chargeback
      1).2).frozen = true ∧
    (Account.runOps (Account.new 1 100) [.dispute 1, .chargeback 1]).applyOp (.withdraw 10)
      = (.error .FrozenAccount, Account.runOps (Account.new 1 100) [.dispute 1, .chargeback 1]) := by
  have h := claim_C2_chargeback_freeze.1 1 100 [.deposit 2 50, .dispute 1] _ 1
    { amount := 100, disputed := true } rfl (by decide) (by decide) (by decide)
  exact ⟨h.1, h.2.2.1, h.2.2.2.2.2,
    claim_C2_chargeback_freeze.2 _ (.withdraw 10) (by decide)⟩

/-- C8: whenever a dispute of `tx` succeeds and is immediately followed
by a resolve of `tx`, the resolve succeeds, `available` and `held` return
to their pre-dispute values, and the deposit's disputed flag ends false. -/
theorem claim_C8_dispute_resolve_roundtrip (a : Account) (tx : Nat)
    (h : (a.dispute tx).1 = .ok ()) :
    (((a.dispute tx).2).resolve tx).1 = .ok () ∧
    ((((a.dispute tx).2).resolve tx).2).available = a.available ∧
    ((((a.dispute tx).2).resolve tx).2).held = a.held ∧
    (∀ d, lookupDeposit a.deposits tx = some d →
      lookupDeposit (((((a.dispute tx).2).resolve tx).2)).deposits tx
        = some { amount := d.amount, disputed := false }) := by
  obtain ⟨hf, d, hl, hd, hle⟩ := Account.dispute_ok_inv h
  rw [Account.dispute_ok hf hl hd hle]
  have hl1 : lookupDeposit (setDeposit a.deposits tx (Deposit.dispute d)) tx
      = some (Deposit.dispute d) := lookupDeposit_setDeposit_self hl
  have hd1 : (Deposit.dispute d).disputed = true := rfl
  rw [Account.resolve_ok (a := { a with
        deposits := setDeposit a.deposits tx (Deposit.dispute d)
        available := a.available - d.amount
        held := a.held + d.amount }) (by simpa using hf) hl1 hd1]
  refine ⟨rfl, by simp [Deposit.dispute]; omega, by simp [Deposit.dispute], ?_⟩
  intro d0 hl0
  rw [hl] at hl0
  cases hl0
  have := @lookupDeposit_setDeposit_self _ _ _
    (Deposit.resolve (Deposit.dispute d)) hl1
  simpa [Deposit.dispute, Deposit.resolve] using this

/-- Witness for C8 on a fresh account. -/
theorem claim_C8_dispute_resolve_roundtrip_witness :
    (((Account.new 1 100).dispute 1).1 = .ok ()) ∧
    ((((Account.new 1 100).dispute 1).2).resolve 1).1 = .ok () ∧
    (((((Account.new 1 100).dispute 1).2).resolve 1).2).available
      = (Account.new 1 100).available ∧
    (((((Account.new 1 100).dispute 1).2).resolve 1).2).held
      = (Account.new 1 100).held := by
  have h := claim_C8_dispute_resolve_roundtrip (Account.new 1 100) 1 (by decide)
  exact ⟨by decide, h.1, h.2.1, h.2.2.1⟩

/-- C10: in every reachable account state, `held` equals the sum of the
amounts of the currently disputed deposits; consequently, when a resolve
or chargeback reaches its subtraction, the disputed deposit's amount is
at most `held` and `held -= amt` cannot underflow. -/
theorem claim_C10_held_sum (tx0 amt0 : Nat) (ops : List AccountOp) (a : Account)
    (ha : a = Account.runOps (Account.new tx0 amt0) ops) :
    a.held = disputedSum a.deposits ∧
    (∀ tx d, lookupDeposit a.deposits tx = some d → d.disputed = true →
      d.amount ≤ a.held) ∧
    (∀ tx, (a.resolve tx).1 = .ok () →
      ∃ d, lookupDeposit a.deposits tx = some d ∧ d.amount ≤ a.held ∧
        ((a.resolve tx).2).held + d.amount = a.held) ∧
    (∀ tx, (a.chargeback tx).1 = .ok () →
      ∃ d, lookupDeposit a.deposits tx = some d ∧ d.amount ≤ a.held ∧
        ((a.chargeback tx).2).held + d.amount = a.held) := by
  have hinv : a.heldInv := ha ▸ Account.heldInv_reachable tx0 amt0 ops
  refine ⟨hinv, fun tx d hl hd => hinv ▸ amount_le_disputedSum hl hd, ?_, ?_⟩
  · intro tx h
    obtain ⟨hf, d, hl, hd⟩ := Account.resolve_ok_inv h
    have hheld : d.amount ≤ a.held := hinv ▸ amount_le_disputedSum hl hd
    refine ⟨d, hl, hheld, ?_⟩
    rw [Account.resolve_ok hf hl hd]
    simp
    omega
  · intro tx h
    obtain ⟨hf, d, hl, hd⟩ := Account.chargeback_ok_inv h
    have hheld : d.amount ≤ a.held := hinv ▸ amount_le_disputedSum hl hd
    refine ⟨d, hl, hheld, ?_⟩
    rw [Account.chargeback_ok hf hl hd]
    simp
    omega

/-- Witness for C10 after one dispute. -/
theorem claim_C10_held_sum_witness :
    (Account.runOps (Account.new 1 100) [.dispute 1]).held
      = disputedSum (Account.runOps (Account.new 1 100) [.dispute 1]).deposits ∧
    ((Account.runOps (Account.new 1 100) [.dispute 1]).resolve 1).1 = .ok () ∧
    (∃ d, lookupDeposit (Account.runOps (Account.new 1 100) [.dispute 1]).deposits 1
        = some d ∧
      d.amount ≤ (Account.runOps (Account.new 1 100) [.dispute 1]).held ∧
      (((Account.runOps (Account.new 1 100) [.dispute 1]).resolve 1).2).held + d.amount
        = (Account.runOps (Account.new 1 100) [.dispute 1]).held) := by
  refine ⟨(claim_C10_held_sum 1 100 [.dispute 1] _ rfl).1, by decide, ?_⟩
  exact (claim_C10_held_sum 1 100 [.dispute 1] _ rfl).2.2.1 1 (by decide)

/-- Counterexample to C5: a Deposit record with a missing amount does not
merely skip that record — `load_data`'s loop propagates `MissingAmount`
and stops, so a valid subsequent deposit record is never applied (the
ledger stays empty), although processing that second record alone would
have changed the ledger. -/
theorem claim_C5_counterexample :
    processRecords
      [{ operation := .Deposit, client := 7, tx := 1, amount := none },
       { operation := .Deposit, client := 7, tx := 2, amount := some 25 }] Manager.new
      = (.error .MissingAmount, Manager.new) ∧
    ¬ (processRecords
        [{ operation := .Deposit, client := 7, tx := 2, amount := some 25 }]
        Manager.new).2 = Manager.new := by
  exact ⟨by decide, by decide⟩

/-- C5 (amended): when the record-processing layer encounters a Deposit
or Withdrawal record whose amount is absent, it raises `MissingAmount`
before reaching the ledger and leaves the ledger state unaffected by that
record, but treats it as a hard error: the record loop aborts, the error
propagates to the caller, and the subsequent records of the stream are
not processed. -/
theorem claim_C5_missing_amount (r : TransactionRecord)
    (rest : List TransactionRecord) (m : Manager)
    (hop : r.operation = Operation.Deposit ∨ r.operation = Operation.Withdrawal)
    (hamt : r.amount = none) :
    r.process m = (.error .MissingAmount, m) ∧
    processRecords (r :: rest) m = (.error .MissingAmount, m) := by
  have hp : r.process m = (.error .MissingAmount, m) := by
    rcases hop with h | h <;> simp [TransactionRecord.process, h, hamt]
  refine ⟨hp, ?_⟩
  simp [processRecords, hp]

/-- Witness for the amended C5 on a concrete two-record stream. -/
theorem claim_C5_missing_amount_witness :
    processRecords
      [{ operation := .Withdrawal, client := 3, tx := 9, amount := none },
       { operation := .Deposit, client := 3, tx := 9, amount := some 10 }] Manager.new
      = (.error .MissingAmount, Manager.new) :=
  (claim_C5_missing_amount
    { operation := .Withdrawal, client := 3, tx := 9, amount := none }
    [{ operation := .Deposit, client := 3, tx := 9, amount := some 10 }]
    Manager.new (Or.inr rfl) rfl).2

/-- Counterexample to C6: on a frozen account a deposit that reuses an
existing transaction id fails with `FrozenAccount`, not with
`DuplicateTxn`, because `Account::deposit` checks `frozen` first. -/
theorem claim_C6_counterexample :
    lookupDeposit
        (Account.runOps (Account.new 1 100) [.dispute 1, .chargeback 1]).deposits 1
      = some { amount := 100, disputed := false } ∧
    ((Account.runOps (Account.new 1 100) [.dispute 1, .chargeback 1]).deposit 1 50).1
      = .error .FrozenAccount ∧
    ¬ ((Account.runOps (Account.new 1 100) [.dispute 1, .chargeback 1]).deposit 1 50).1
      = .error (.DuplicateTxn 1) := by
  exact ⟨by decide, by decide, by decide⟩

/-- C6 (amended): on a non-frozen account, every deposit that reuses a
transaction id already present in the deposit set fails with
`DuplicateTxn` and leaves the account (available, held, deposit set)
unchanged; hence after a successful deposit of `tx`, every further
deposit of `tx` fails with `DuplicateTxn` without mutation (on a frozen
account the attempt fails with `FrozenAccount` instead, likewise without
mutation). -/
theorem claim_C6_duplicate_deposit :
    (∀ (a : Account) (tx amt : Nat) (d : Deposit), a.frozen = false →
      lookupDeposit a.deposits tx = some d →
      a.deposit tx amt = (.error (.DuplicateTxn tx), a)) ∧
    (∀ (a : Account) (tx amt amt2 : Nat), (a.deposit tx amt).1 = .ok () →
      ((a.deposit tx amt).2).deposit tx amt2
        = (.error (.DuplicateTxn tx), (a.deposit tx amt).2)) := by
  constructor
  · exact fun a tx amt d hf hl => Account.deposit_dup hf hl
  · intro a tx amt amt2 h
    obtain ⟨hf, hl⟩ := Account.deposit_ok_inv h
    rw [Account.deposit_vacant hf hl]
    exact Account.deposit_dup (by simpa using hf) (lookupDeposit_append_right hl)

/-- Witness for the amended C6: depositing tx 2 twice. -/
theorem claim_C6_duplicate_deposit_witness :
    (((Account.new 1 100).deposit 2 40).2).deposit 2 40
      = (.error (.DuplicateTxn 2), ((Account.new 1 100).deposit 2 40).2) :=
  claim_C6_duplicate_deposit.2 (Account.new 1 100) 2 40 40 (by decide)

/-- C9: the output rendering splits a fixed-point balance into the
quotient by 10,000, a decimal point, and the remainder left-padded with
zeros to exactly four digits (so 15000 renders as "1.5000"), and each
emitted record copies the account's fields, with `locked` equal to the
`frozen` flag and `total` equal to `available + held`. -/
theorem claim_C9_render :
    (∀ x : Nat, fixed_point_serialize x
      = Nat.repr (x / 10000) ++ "."
        ++ (String.mk (List.replicate (4 - (Nat.repr (x % 10000)).length) '0')
            ++ Nat.repr (x % 10000))) ∧
    (∀ x : Nat,
      (String.mk (List.replicate (4 - (Nat.repr (x % 10000)).length) '0')
        ++ Nat.repr (x % 10000)).length = 4) ∧
    fixed_point_serialize 15000 = "1.5000" ∧
    (∀ p : Nat × Account,
      (AccountRecord.fromPair p).client = p.1 ∧
      (AccountRecord.fromPair p).available = p.2.available ∧
      (AccountRecord.fromPair p).held = p.2.held ∧
      (AccountRecord.fromPair p).total = p.2.available + p.2.held ∧
      (AccountRecord.fromPair p).locked = p.2.frozen) := by
  refine ⟨fun x => rfl, fun x => ?_, by decide, fun p => ?_⟩
  · have hlt : x % 10000 < 10 ^ 4 := by
      have h := Nat.mod_lt x (y := 10000) (by norm_num)
      norm_num
      exact h
    have hlen : (Nat.repr (x % 10000)).length ≤ 4 :=
      Nat.repr_length _ 4 (by norm_num) hlt
    rw [String.length_append]
    have hmk : (String.mk (List.replicate (4 - (Nat.repr (x % 10000)).length) '0')).length
        = 4 - (Nat.repr (x % 10000)).length := by
      rw [String.length_mk, List.length_replicate]
    rw [hmk]
    omega
  · exact ⟨rfl, rfl, rfl, rfl, rfl⟩
